import Mathlib

/-!
Shallow embedding of the CompetitorAnalyzer React component
(src/unnamed/part_000): the five pieces of component state held in
useState hooks, the event handlers addUrl / removeUrl /
analyzeCompetitors / downloadPDF, and the chart rendering, together with
the JavaScript string semantics they rely on (truthiness, trim, split,
the || operator, encodeURIComponent).
-/

namespace CompetitorAnalysis

/-- Characters treated as whitespace by the JavaScript string trim
operation (ASCII whitespace plus NBSP and BOM; no claim depends on the
more exotic Unicode space characters). -/
def isJsWhitespace (c : Char) : Bool :=
  c = ' ' || c = '\t' || c = '\n' || c = '\r' || c.toNat = 11 || c.toNat = 12 ||
    c.toNat = 0xA0 || c.toNat = 0xFEFF

/-- JavaScript String.prototype.trim on the character list: remove
leading and trailing whitespace. -/
def jsTrimList (l : List Char) : List Char :=
  (l.dropWhile isJsWhitespace).rdropWhile isJsWhitespace

/-- JavaScript String.prototype.trim. -/
def jsTrim (s : String) : String := String.mk (jsTrimList s.data)

/-- JavaScript `a || b` where `a` is an optional string field read from a
JSON object: an absent field (undefined) and the empty string are falsy;
every other string is truthy. -/
def jsOrElse (d : Option String) (fallback : String) : String :=
  match d with
  | some v => if v = "" then fallback else v
  | none => fallback

/-- JavaScript String.prototype.split with a single-character separator,
on the character list; note "".split(sep) is [""]. -/
def jsSplitChar (sep : Char) : List Char → List (List Char)
  | [] => [[]]
  | c :: cs =>
    if c = sep then [] :: jsSplitChar sep cs
    else
      match jsSplitChar sep cs with
      | [] => [[c]]
      | t :: ts => (c :: t) :: ts

/-- The characters encodeURIComponent leaves unescaped:
A-Z a-z 0-9 - _ . ! ~ * ' ( ). -/
def isUnreservedInURIComponent (c : Char) : Bool :=
  c.isAlphanum || c = '-' || c = '_' || c = '.' || c = '!' || c = '~' || c = '*' ||
    c.toNat = 39 || c = '(' || c = ')'

/-- UTF-8 encoding of a Unicode code point, as a list of byte values. -/
def utf8ByteList (n : Nat) : List Nat :=
  if n < 128 then [n]
  else if n < 2048 then [192 + n / 64, 128 + n % 64]
  else if n < 65536 then [224 + n / 4096, 128 + n / 64 % 64, 128 + n % 64]
  else [240 + n / 262144, 128 + n / 4096 % 64, 128 + n / 64 % 64, 128 + n % 64]

/-- Uppercase hexadecimal digit for a value below 16. -/
def hexDigitChar (n : Nat) : Char :=
  if n < 10 then Char.ofNat (48 + n) else Char.ofNat (55 + n)

/-- Percent-encoding of one byte value, e.g. 47 becomes "%2F". -/
def percentEncodeByte (b : Nat) : List Char :=
  ['%', hexDigitChar (b / 16), hexDigitChar (b % 16)]

/-- JavaScript encodeURIComponent: every character outside the
unreserved set is replaced by the percent-encoding of its UTF-8 bytes. -/
def encodeURIComponent (s : String) : String :=
  String.mk ((s.data.map (fun c =>
    if isUnreservedInURIComponent c then [c]
    else ((utf8ByteList c.toNat).map percentEncodeByte).flatten)).flatten)

/-- Shape of a successful response of POST /api/analyze
(interface AnalyzeResponse in the source). -/
structure AnalyzeResponse where
  report_text : String
  pdf_path : String
  charts : List String
deriving DecidableEq

/-- const API_BASE = 'http://localhost:8000'. -/
def API_BASE : String := "http://localhost:8000"

/-- Validation message set when analyzeCompetitors is called with an
empty url list. -/
def emptyUrlsMessage : String := "Добавьте хотя бы один URL для анализа"

/-- Generic message used when a non-ok response body has no truthy
detail field. -/
def analyzeErrorMessage : String := "Ошибка при анализе"

/-- Generic message used when the thrown value is not an Error
instance. -/
def genericErrorMessage : String := "Произошла ошибка"

/-- The component state: the five useState hooks
urls, urlInput, isAnalyzing, result, error. -/
structure ComponentState where
  urls : List String
  urlInput : String
  isAnalyzing : Bool
  result : Option AnalyzeResponse
  error : Option String
deriving DecidableEq

/-- The initial state of the five hooks. -/
def initialState : ComponentState :=
  { urls := [], urlInput := "", isAnalyzing := false, result := none, error := none }

/-- addUrl handler: if urlInput.trim() is truthy (non-empty) and not
already in urls, append the trimmed value and clear the input; otherwise
do nothing. -/
def addUrl (s : ComponentState) : ComponentState :=
  let t := jsTrim s.urlInput
  if t != "" && !(s.urls.contains t) then
    { s with urls := s.urls ++ [t], urlInput := "" }
  else s

/-- removeUrl handler: urls.filter of the pairs (element, position) by
position different from index. -/
def removeUrl (s : ComponentState) (index : Nat) : ComponentState :=
  { s with urls := (s.urls.enum.filter (fun p => p.1 != index)).map Prod.snd }

/-- Outcomes of the awaited fetch of POST /api/analyze, as the code
distinguishes them: an ok response with parsed body; a non-ok response
whose parsed error body carries an optional detail field; a thrown value
(some message when it is an Error instance, none otherwise). -/
inductive FetchOutcome where
  | success (r : AnalyzeResponse)
  | httpError (detail : Option String)
  | exception (message : Option String)
deriving DecidableEq

/-- State change at the start of analyzeCompetitors once past the
empty-list guard: setIsAnalyzing(true); setError(null);
setResult(null). -/
def beginAnalyze (s : ComponentState) : ComponentState :=
  { s with isAnalyzing := true, error := none, result := none }

/-- The try/catch/finally of analyzeCompetitors after the fetch
resolves: an ok response stores the parsed result; a non-ok response
throws new Error(errorData.detail || analyzeErrorMessage), caught below
and stored in error; any other thrown value stores its message when it
is an Error, else the generic message; the finally clause always resets
isAnalyzing. -/
def applyOutcome (s : ComponentState) (o : FetchOutcome) : ComponentState :=
  let s1 :=
    match o with
    | .success r => { s with result := some r }
    | .httpError detail => { s with error := some (jsOrElse detail analyzeErrorMessage) }
    | .exception message =>
        { s with error := some (match message with | some m => m | none => genericErrorMessage) }
  { s1 with isAnalyzing := false }

/-- One whole call of analyzeCompetitors, from invocation to the settled
promise; `net` is how the network would behave if a request were issued.
Second component: the body of the POST /api/analyze request when one is
issued, none when no network call is made. -/
def analyzeCompetitors (s : ComponentState) (net : FetchOutcome) :
    ComponentState × Option (List String) :=
  if s.urls.length = 0 then ({ s with error := some emptyUrlsMessage }, none)
  else (applyOutcome (beginAnalyze s) net, some s.urls)

/-- downloadPDF handler: the window.open(url, target) call it makes, if
any. result?.pdf_path is truthy exactly when a result is present and its
pdf_path is a non-empty string. -/
def downloadPDF (s : ComponentState) : Option (String × String) :=
  match s.result with
  | some r =>
    if r.pdf_path != "" then
      some (API_BASE ++ "/api/download?path=" ++ encodeURIComponent r.pdf_path, "_blank")
    else none
  | none => none

/-- src attribute of one rendered chart image:
API_BASE/charts/ followed by chart.split('/').pop(). -/
def chartSrc (chart : String) : String :=
  API_BASE ++ "/charts/" ++ String.mk ((jsSplitChar '/' chart.data).getLastD [])

/-- The img srcs rendered for a result: one per chart path when the
charts list is non-empty, none otherwise. -/
def renderedChartSrcs (r : AnalyzeResponse) : List String :=
  if r.charts.length > 0 then r.charts.map chartSrc else []

/-- Comparator written from the spec wording: the chart basename is the
last path segment of the stored chart path, i.e. its longest suffix
containing no '/'. -/
def lastPathSegment (s : String) : String :=
  String.mk (s.data.rtakeWhile (fun c => c != '/'))

/-- External events driving the component: typing in the input field,
clicking the add button (the Enter keypress does the same), clicking one
remove button, clicking the analyze button, and the in-flight fetch
settling. -/
inductive UIEvent where
  | setInput (value : String)
  | clickAdd
  | clickRemove (index : Nat)
  | submit
  | complete (o : FetchOutcome)
deriving DecidableEq

/-- Handler-level step: submit invokes analyzeCompetitors directly
(including its internal empty-list branch); complete settles the
in-flight fetch, if there is one. -/
def step (s : ComponentState) : UIEvent → ComponentState
  | .setInput v => { s with urlInput := v }
  | .clickAdd => addUrl s
  | .clickRemove i => removeUrl s i
  | .submit =>
    if s.urls.length = 0 then { s with error := some emptyUrlsMessage }
    else beginAnalyze s
  | .complete o => if s.isAnalyzing then applyOutcome s o else s

/-- UI-level step: the analyze button is rendered with
disabled equal to isAnalyzing or an empty url list, so a submit while it
is disabled does nothing; all other events behave as in step. -/
def stepUI (s : ComponentState) : UIEvent → ComponentState
  | .submit =>
    if s.isAnalyzing = true ∨ s.urls.length = 0 then s else beginAnalyze s
  | .setInput v => { s with urlInput := v }
  | .clickAdd => addUrl s
  | .clickRemove i => removeUrl s i
  | .complete o => if s.isAnalyzing then applyOutcome s o else s

/-- State reached from the initial state by a sequence of handler-level
events. -/
def run (evs : List UIEvent) : ComponentState := evs.foldl step initialState

/-- State reached from the initial state by a sequence of UI-level
events. -/
def runUI (evs : List UIEvent) : ComponentState := evs.foldl stepUI initialState

/-- Idle phase: not analyzing, no error, no result. -/
def isIdle (s : ComponentState) : Prop :=
  s.isAnalyzing = false ∧ s.error = none ∧ s.result = none

/-- Analyzing phase: the in-progress flag is set. -/
def inAnalyzingPhase (s : ComponentState) : Prop := s.isAnalyzing = true

/-- Succeeded phase: not analyzing and a result is stored. -/
def inSucceededPhase (s : ComponentState) : Prop :=
  s.isAnalyzing = false ∧ s.result.isSome = true

/-- Failed phase: not analyzing and an error message is stored. -/
def inFailedPhase (s : ComponentState) : Prop :=
  s.isAnalyzing = false ∧ s.error.isSome = true

/-- Exactly one of four propositions holds. -/
def exactlyOneOf4 (a b c d : Prop) : Prop :=
  (a ∧ ¬b ∧ ¬c ∧ ¬d) ∨ (¬a ∧ b ∧ ¬c ∧ ¬d) ∨ (¬a ∧ ¬b ∧ c ∧ ¬d) ∨ (¬a ∧ ¬b ∧ ¬c ∧ d)

/-- Session invariant: while analyzing, error and result are both clear,
and error and result are never both set. -/
def SessionInv (s : ComponentState) : Prop :=
  (s.isAnalyzing = true → s.error = none ∧ s.result = none) ∧
    ¬(s.error.isSome = true ∧ s.result.isSome = true)

/-- Invariant of the url list: every entry is non-empty and already
trimmed, and there are no duplicates. -/
def urlListInv (l : List String) : Prop :=
  (∀ u ∈ l, u ≠ "" ∧ jsTrim u = u) ∧ l.Nodup

/-- A sample successful response. -/
def sampleResponse : AnalyzeResponse :=
  { report_text := "X", pdf_path := "/r/a.pdf", charts := ["/c/1.png"] }

/-- Handler-level trace: add one url, analyze successfully, remove the
url again, then invoke analyzeCompetitors on the now-empty list. -/
def bothSetTrace : List UIEvent :=
  [UIEvent.setInput "https://a.com", UIEvent.clickAdd, UIEvent.submit,
   UIEvent.complete (FetchOutcome.success sampleResponse),
   UIEvent.clickRemove 0, UIEvent.submit]

end CompetitorAnalysis

namespace CompetitorAnalysis

/-- Claim C1: every call of analyzeCompetitors with a non-empty url list
leaves the isAnalyzing flag false after the call completes, whatever the
outcome of the network call (successful response, non-success HTTP
status, or a thrown exception): the finally clause runs on every exit
path past the guard. -/
theorem analyzeCompetitors_resets_isAnalyzing (s : ComponentState) (net : FetchOutcome)
    (h : s.urls.length ≠ 0) :
    ((analyzeCompetitors s net).1).isAnalyzing = false := by
  unfold analyzeCompetitors
  rw [if_neg h]
  cases net <;> rfl

/-- Claim C1 witness at a concrete state and each of the three outcome
shapes. -/
theorem analyzeCompetitors_resets_isAnalyzing_witness :
    (({ initialState with urls := ["https://a.com"] } : ComponentState).urls.length ≠ 0) ∧
      ((analyzeCompetitors { initialState with urls := ["https://a.com"] }
          (FetchOutcome.success sampleResponse)).1).isAnalyzing = false ∧
      ((analyzeCompetitors { initialState with urls := ["https://a.com"] }
          (FetchOutcome.httpError (some "bad url"))).1).isAnalyzing = false ∧
      ((analyzeCompetitors { initialState with urls := ["https://a.com"] }
          (FetchOutcome.exception none)).1).isAnalyzing = false :=
  ⟨by decide,
    analyzeCompetitors_resets_isAnalyzing _ _ (by decide),
    analyzeCompetitors_resets_isAnalyzing _ _ (by decide),
    analyzeCompetitors_resets_isAnalyzing _ _ (by decide)⟩

/-- Claim C3: a call of analyzeCompetitors with an empty url list issues
no network request (no POST body is produced), and stores the non-empty
user-facing validation message. -/
theorem analyzeCompetitors_empty_no_request (s : ComponentState) (net : FetchOutcome)
    (h : s.urls.length = 0) :
    (analyzeCompetitors s net).2 = none ∧
      (analyzeCompetitors s net).1.error = some emptyUrlsMessage ∧
      emptyUrlsMessage ≠ "" := by
  unfold analyzeCompetitors
  rw [if_pos h]
  exact ⟨rfl, rfl, by decide⟩

/-- Claim C3 witness at the initial state. -/
theorem analyzeCompetitors_empty_no_request_witness :
    (analyzeCompetitors initialState (FetchOutcome.success sampleResponse)).2 = none ∧
      (analyzeCompetitors initialState
        (FetchOutcome.success sampleResponse)).1.error = some emptyUrlsMessage ∧
      emptyUrlsMessage ≠ "" :=
  analyzeCompetitors_empty_no_request initialState (FetchOutcome.success sampleResponse) (by decide)

end CompetitorAnalysis

namespace CompetitorAnalysis

/-- Claim C4 counterexample: on a non-success response whose parsed body
has a detail field that is present but equal to the empty string, the
stored failure message is the generic fallback, not the detail value, so
"the displayed failure message equals the detail field whenever that
field is present" is false. -/
theorem httpError_present_empty_detail_counterexample :
    (analyzeCompetitors { initialState with urls := ["https://a.com"] }
        (FetchOutcome.httpError (some ""))).1.error ≠ some "" ∧
      (analyzeCompetitors { initialState with urls := ["https://a.com"] }
        (FetchOutcome.httpError (some ""))).1.error = some analyzeErrorMessage ∧
      analyzeErrorMessage ≠ "" := by
  refine ⟨?_, rfl, by decide⟩
  decide

/-- Claim C4 amended: the displayed failure message equals the detail
field of the parsed error body when that field is present and non-empty
(JavaScript truthiness of `detail || fallback`), and is the non-empty
generic fallback message when the field is absent or empty. -/
theorem analyzeCompetitors_httpError_message (s : ComponentState) (d : Option String)
    (h : s.urls.length ≠ 0) :
    (∀ v, d = some v → v ≠ "" →
      (analyzeCompetitors s (FetchOutcome.httpError d)).1.error = some v) ∧
    ((d = none ∨ d = some "") →
      (analyzeCompetitors s (FetchOutcome.httpError d)).1.error = some analyzeErrorMessage ∧
        analyzeErrorMessage ≠ "") := by
  unfold analyzeCompetitors
  rw [if_neg h]
  constructor
  · intro v hv hne
    subst hv
    simp [applyOutcome, beginAnalyze, jsOrElse, hne]
  · rintro (hd | hd) <;> subst hd <;>
      exact ⟨rfl, by decide⟩

/-- Claim C4 amended witness: a present non-empty detail is displayed
verbatim, an absent detail yields the fallback. -/
theorem analyzeCompetitors_httpError_message_witness :
    (analyzeCompetitors { initialState with urls := ["https://a.com"] }
        (FetchOutcome.httpError (some "bad url"))).1.error = some "bad url" ∧
      (analyzeCompetitors { initialState with urls := ["https://a.com"] }
          (FetchOutcome.httpError none)).1.error = some analyzeErrorMessage ∧
        analyzeErrorMessage ≠ "" :=
  ⟨(analyzeCompetitors_httpError_message _ (some "bad url") (by decide)).1 "bad url" rfl
      (by decide),
    (analyzeCompetitors_httpError_message _ none (by decide)).2 (Or.inl rfl)⟩

/-- Claim C5: an exception during the network call moves the session to
the Failed shape (error set, no result, not analyzing) with the
exception's message when the thrown value is an Error instance, and with
the non-empty generic fallback message otherwise. -/
theorem analyzeCompetitors_exception_failed (s : ComponentState) (m : Option String)
    (h : s.urls.length ≠ 0) :
    (analyzeCompetitors s (FetchOutcome.exception m)).1.isAnalyzing = false ∧
      (analyzeCompetitors s (FetchOutcome.exception m)).1.result = none ∧
      (∀ v, m = some v →
        (analyzeCompetitors s (FetchOutcome.exception m)).1.error = some v) ∧
      (m = none →
        (analyzeCompetitors s (FetchOutcome.exception m)).1.error = some genericErrorMessage ∧
          genericErrorMessage ≠ "") := by
  unfold analyzeCompetitors
  rw [if_neg h]
  refine ⟨rfl, rfl, ?_, ?_⟩
  · intro v hv
    subst hv
    rfl
  · intro hv
    subst hv
    exact ⟨rfl, by decide⟩

/-- Claim C5 witness: an Error with message "boom" and a thrown
non-Error value, at a concrete state. -/
theorem analyzeCompetitors_exception_failed_witness :
    (analyzeCompetitors { initialState with urls := ["https://a.com"] }
        (FetchOutcome.exception (some "boom"))).1.error = some "boom" ∧
      (analyzeCompetitors { initialState with urls := ["https://a.com"] }
          (FetchOutcome.exception none)).1.error = some genericErrorMessage ∧
        genericErrorMessage ≠ "" :=
  ⟨(analyzeCompetitors_exception_failed _ (some "boom") (by decide)).2.2.1 "boom" rfl,
    (analyzeCompetitors_exception_failed _ none (by decide)).2.2.2 rfl⟩

end CompetitorAnalysis

namespace CompetitorAnalysis

/-- The boolean guard of addUrl holds exactly when the trimmed input is
non-empty and not yet in the list. -/
theorem addUrl_cond (s : ComponentState) :
    ((jsTrim s.urlInput != "") && !(s.urls.contains (jsTrim s.urlInput))) = true ↔
      (jsTrim s.urlInput ≠ "" ∧ jsTrim s.urlInput ∉ s.urls) := by
  simp [List.contains, List.elem_iff]

/-- Claim C6: addUrl trims the input; when the trimmed string is empty
or already present the whole state is unchanged; otherwise the trimmed
string is appended to the end of the list, the input field is cleared,
and nothing else changes. -/
theorem addUrl_spec (s : ComponentState) :
    (jsTrim s.urlInput = "" ∨ jsTrim s.urlInput ∈ s.urls → addUrl s = s) ∧
    (jsTrim s.urlInput ≠ "" → jsTrim s.urlInput ∉ s.urls →
      (addUrl s).urls = s.urls ++ [jsTrim s.urlInput] ∧ (addUrl s).urlInput = "" ∧
        (addUrl s).isAnalyzing = s.isAnalyzing ∧ (addUrl s).result = s.result ∧
        (addUrl s).error = s.error) := by
  constructor
  · intro h
    unfold addUrl
    rw [if_neg]
    intro hc
    rcases (addUrl_cond s).mp hc with ⟨h1, h2⟩
    rcases h with h | h
    · exact h1 h
    · exact h2 h
  · intro h1 h2
    unfold addUrl
    rw [if_pos ((addUrl_cond s).mpr ⟨h1, h2⟩)]
    exact ⟨rfl, rfl, rfl, rfl, rfl⟩

/-- Claim C6 witness: adding a duplicate (after trimming) is a no-op;
adding a fresh value appends its trimmed form and clears the input. -/
theorem addUrl_spec_witness :
    addUrl { initialState with urls := ["https://a.com"], urlInput := " https://a.com " }
        = { initialState with urls := ["https://a.com"], urlInput := " https://a.com " } ∧
      (addUrl { initialState with urlInput := " https://a.com " }).urls
          = ({ initialState with urlInput := " https://a.com " } : ComponentState).urls
            ++ [jsTrim ({ initialState with
                  urlInput := " https://a.com " } : ComponentState).urlInput] ∧
      (addUrl { initialState with urlInput := " https://a.com " }).urlInput = "" :=
  ⟨(addUrl_spec _).1 (Or.inr (by decide)),
    ((addUrl_spec _).2 (by decide) (by decide)).1,
    ((addUrl_spec _).2 (by decide) (by decide)).2.1⟩

/-- Positions strictly below n never match i when i is below n, so the
filter keeps everything. -/
theorem enumFrom_filter_ne_of_lt {α : Type} (l : List α) (n i : Nat) (h : i < n) :
    ((List.enumFrom n l).filter (fun p => p.1 != i)).map Prod.snd = l := by
  induction l generalizing n with
  | nil => rfl
  | cons a tl ih =>
    have hne : (n != i) = true := by simp; omega
    rw [List.enumFrom_cons, List.filter_cons, if_pos hne, List.map_cons,
      ih (n + 1) (by omega)]

/-- Filtering position i out of the positions starting at n removes
exactly the element i - n places in. -/
theorem enumFrom_filter_ne_of_le {α : Type} (l : List α) (n i : Nat) (h : n ≤ i) :
    ((List.enumFrom n l).filter (fun p => p.1 != i)).map Prod.snd
      = l.take (i - n) ++ l.drop (i - n + 1) := by
  induction l generalizing n with
  | nil => simp
  | cons a tl ih =>
    rcases Nat.eq_or_lt_of_le h with heq | hlt
    · subst heq
      have hne : ¬((n != n) = true) := by simp
      rw [List.enumFrom_cons, List.filter_cons, if_neg hne,
        enumFrom_filter_ne_of_lt tl (n + 1) n (by omega)]
      simp
    · have hne : (n != i) = true := by simp; omega
      have hk : i - n = (i - (n + 1)) + 1 := by omega
      rw [List.enumFrom_cons, List.filter_cons, if_pos hne, List.map_cons,
        ih (n + 1) hlt, hk, List.take_succ_cons, List.drop_succ_cons]
      simp

/-- Claim C7: removeUrl at a valid index removes exactly the element at
that index, keeping the prefix before it and the suffix after it in
order and shrinking the length by one; at an out-of-range index the
whole state is unchanged. -/
theorem removeUrl_spec (s : ComponentState) (index : Nat) :
    (index < s.urls.length →
      (removeUrl s index).urls = s.urls.take index ++ s.urls.drop (index + 1) ∧
        (removeUrl s index).urls.length = s.urls.length - 1) ∧
    (s.urls.length ≤ index → removeUrl s index = s) := by
  have hbase : (removeUrl s index).urls
      = s.urls.take index ++ s.urls.drop (index + 1) := by
    show ((s.urls.enum.filter (fun p => p.1 != index)).map Prod.snd) = _
    rw [show s.urls.enum = List.enumFrom 0 s.urls from rfl]
    rw [enumFrom_filter_ne_of_le s.urls 0 index (Nat.zero_le index)]
    simp
  constructor
  · intro h
    refine ⟨hbase, ?_⟩
    rw [hbase]
    simp only [List.length_append, List.length_take, List.length_drop]
    omega
  · intro h
    have hurls : (removeUrl s index).urls = s.urls := by
      rw [hbase, List.take_of_length_le h, List.drop_eq_nil_of_le (by omega)]
      simp
    show ({ s with urls := (s.urls.enum.filter (fun p => p.1 != index)).map Prod.snd }
        : ComponentState) = s
    rw [show ((s.urls.enum.filter (fun p => p.1 != index)).map Prod.snd) = s.urls from hurls]

/-- Claim C7 witness: removing index 1 of a three-element list keeps the
first and third elements in order; removing index 5 changes nothing. -/
theorem removeUrl_spec_witness :
    (removeUrl { initialState with urls := ["a", "b", "c"] } 1).urls
        = (["a", "b", "c"] : List String).take 1 ++ (["a", "b", "c"] : List String).drop 2 ∧
      (removeUrl { initialState with urls := ["a", "b", "c"] } 1).urls.length = 3 - 1 ∧
      removeUrl { initialState with urls := ["a", "b", "c"] } 5
        = { initialState with urls := ["a", "b", "c"] } :=
  ⟨((removeUrl_spec _ 1).1 (by decide)).1,
    ((removeUrl_spec _ 1).1 (by decide)).2,
    (removeUrl_spec _ 5).2 (by decide)⟩

end CompetitorAnalysis

namespace CompetitorAnalysis

/-- The split of a list by a separator is never the empty list of
pieces. -/
theorem jsSplitChar_ne_nil (sep : Char) (l : List Char) : jsSplitChar sep l ≠ [] := by
  induction l with
  | nil => simp [jsSplitChar]
  | cons c cs ih =>
    by_cases hc : c = sep
    · simp [jsSplitChar, hc]
    · rw [jsSplitChar, if_neg hc]
      cases h : jsSplitChar sep cs with
      | nil => exact absurd h ih
      | cons t ts => simp

/-- Splitting a list ending in the separator adds one empty trailing
piece. -/
theorem jsSplitChar_concat_sep (sep : Char) (xs : List Char) :
    jsSplitChar sep (xs ++ [sep]) = jsSplitChar sep xs ++ [[]] := by
  induction xs with
  | nil => simp [jsSplitChar]
  | cons c cs ih =>
    by_cases hc : c = sep
    · rw [List.cons_append, jsSplitChar, if_pos hc, ih, jsSplitChar, if_pos hc]
      rfl
    · rw [List.cons_append, jsSplitChar, if_neg hc, ih, jsSplitChar, if_neg hc]
      cases h : jsSplitChar sep cs with
      | nil => exact absurd h (jsSplitChar_ne_nil sep cs)
      | cons t ts => simp

/-- Splitting a list ending in a non-separator appends that character to
the final piece. -/
theorem jsSplitChar_concat_ne (sep x : Char) (hx : ¬(x = sep)) (xs : List Char) :
    jsSplitChar sep (xs ++ [x])
      = (jsSplitChar sep xs).dropLast ++ [((jsSplitChar sep xs).getLastD []) ++ [x]] := by
  induction xs with
  | nil => simp [jsSplitChar, hx]
  | cons c cs ih =>
    by_cases hc : c = sep
    · rw [List.cons_append, jsSplitChar, if_pos hc, ih, jsSplitChar, if_pos hc]
      cases h : jsSplitChar sep cs with
      | nil => exact absurd h (jsSplitChar_ne_nil sep cs)
      | cons t ts => simp [List.getLastD_cons]
    · rw [List.cons_append, jsSplitChar, if_neg hc, ih, jsSplitChar, if_neg hc]
      cases h : jsSplitChar sep cs with
      | nil => exact absurd h (jsSplitChar_ne_nil sep cs)
      | cons t ts =>
        cases ts with
        | nil => simp
        | cons u us =>
          simp only [List.dropLast_cons₂, List.cons_append, List.getLastD_cons]

/-- The last piece of the split is the longest suffix free of the
separator: split('/').pop() computes the last path segment. -/
theorem jsSplitChar_getLastD (sep : Char) (l : List Char) :
    (jsSplitChar sep l).getLastD [] = l.rtakeWhile (fun c => c != sep) := by
  induction l using List.reverseRecOn with
  | nil => simp [jsSplitChar, List.rtakeWhile_nil]
  | append_singleton xs x ih =>
    by_cases hx : x = sep
    · rw [hx, jsSplitChar_concat_sep, List.getLastD_concat,
        List.rtakeWhile_concat_neg _ _ _ (by simp [hx])]
    · rw [jsSplitChar_concat_ne sep x hx, List.getLastD_concat,
        List.rtakeWhile_concat_pos _ _ _ (by simp [hx]), ih]

/-- The rendered src of a chart is the charts endpoint applied to the
last path segment of the stored path. -/
theorem chartSrc_eq_basename (c : String) :
    chartSrc c = API_BASE ++ "/charts/" ++ lastPathSegment c := by
  unfold chartSrc lastPathSegment
  rw [jsSplitChar_getLastD]

/-- Claim C8: for a result with a non-empty charts list, one image is
rendered per chart path, each with src GET /charts/basename where
basename is the last '/'-separated segment of the stored path; the
stored path "/c/1.png" resolves to a src ending in /charts/1.png. -/
theorem renderedChartSrcs_spec (r : AnalyzeResponse) (h : r.charts ≠ []) :
    renderedChartSrcs r
        = r.charts.map (fun c => API_BASE ++ "/charts/" ++ lastPathSegment c) ∧
      (renderedChartSrcs r).length = r.charts.length ∧
      chartSrc "/c/1.png" = "http://localhost:8000/charts/1.png" := by
  have hpos : r.charts.length > 0 := List.length_pos.mpr h
  have hmap : renderedChartSrcs r = r.charts.map chartSrc := by
    unfold renderedChartSrcs
    rw [if_pos hpos]
  refine ⟨?_, ?_, rfl⟩
  · rw [hmap]
    exact List.map_congr_left (fun c _ => chartSrc_eq_basename c)
  · rw [hmap, List.length_map]

/-- Claim C8 witness: the sample response with one chart "/c/1.png". -/
theorem renderedChartSrcs_spec_witness :
    renderedChartSrcs sampleResponse
        = sampleResponse.charts.map (fun c => API_BASE ++ "/charts/" ++ lastPathSegment c) ∧
      (renderedChartSrcs sampleResponse).length = sampleResponse.charts.length ∧
      chartSrc "/c/1.png" = "http://localhost:8000/charts/1.png" :=
  renderedChartSrcs_spec sampleResponse (by decide)

end CompetitorAnalysis

namespace CompetitorAnalysis

/-- Claim C9: the download action opens
GET /api/download?path=(url-encoded pdf_path) in a new browsing context
exactly when a result is present and its pdf_path is present (truthy,
i.e. a non-empty string); with no result, or with an empty pdf_path, it
is a no-op. -/
theorem downloadPDF_spec (s : ComponentState) :
    (s.result = none → downloadPDF s = none) ∧
    (∀ r, s.result = some r →
      (r.pdf_path = "" → downloadPDF s = none) ∧
        (r.pdf_path ≠ "" → downloadPDF s
          = some (API_BASE ++ "/api/download?path=" ++ encodeURIComponent r.pdf_path,
              "_blank"))) := by
  constructor
  · intro h
    simp [downloadPDF, h]
  · intro r hr
    constructor
    · intro hp
      simp [downloadPDF, hr, hp]
    · intro hp
      simp [downloadPDF, hr, hp]

/-- Claim C9 witness: no-op with no result; with the sample result the
encoded pdf_path is opened in a new context. -/
theorem downloadPDF_spec_witness :
    downloadPDF initialState = none ∧
      downloadPDF { initialState with result := some sampleResponse }
        = some (API_BASE ++ "/api/download?path="
            ++ encodeURIComponent sampleResponse.pdf_path, "_blank") :=
  ⟨(downloadPDF_spec initialState).1 rfl,
    ((downloadPDF_spec _).2 sampleResponse rfl).2 (by decide)⟩

/-- Trimming is idempotent on character lists. -/
theorem jsTrimList_idem (l : List Char) : jsTrimList (jsTrimList l) = jsTrimList l := by
  have key : ∀ m : List Char, m.dropWhile isJsWhitespace = m →
      jsTrimList (m.rdropWhile isJsWhitespace) = m.rdropWhile isJsWhitespace := by
    intro m hdw
    unfold jsTrimList
    have h1 : (m.rdropWhile isJsWhitespace).dropWhile isJsWhitespace
        = m.rdropWhile isJsWhitespace := by
      rw [List.dropWhile_eq_self_iff]
      intro hl
      have hpre := List.rdropWhile_prefix isJsWhitespace m
      have hlen : 0 < m.length := lt_of_lt_of_le hl hpre.length_le
      have h0 : (m.rdropWhile isJsWhitespace).get ⟨0, hl⟩ = m.get ⟨0, hlen⟩ := by
        simpa [List.get_eq_getElem] using hpre.getElem hl
      rw [h0]
      exact List.dropWhile_eq_self_iff.mp hdw hlen
    rw [h1, List.rdropWhile_idempotent]
  show jsTrimList ((l.dropWhile isJsWhitespace).rdropWhile isJsWhitespace)
      = (l.dropWhile isJsWhitespace).rdropWhile isJsWhitespace
  exact key _ (List.dropWhile_idempotent isJsWhitespace l)

/-- Trimming is idempotent. -/
theorem jsTrim_idem (s : String) : jsTrim (jsTrim s) = jsTrim s := by
  unfold jsTrim
  rw [show (String.mk (jsTrimList s.data)).data = jsTrimList s.data from rfl, jsTrimList_idem]

/-- Claim C10: every url-list entry is a non-empty string equal to its
own trimmed form and the list has no duplicates; this holds of the
initial empty list and is preserved by addUrl and by removeUrl. -/
theorem urlListInv_preserved :
    urlListInv initialState.urls ∧
      (∀ s : ComponentState, urlListInv s.urls → urlListInv (addUrl s).urls) ∧
      (∀ (s : ComponentState) (i : Nat), urlListInv s.urls → urlListInv (removeUrl s i).urls) := by
  refine ⟨⟨by simp [initialState], List.nodup_nil⟩, ?_, ?_⟩
  · intro s hinv
    unfold addUrl
    by_cases hc : ((jsTrim s.urlInput != "") && !(s.urls.contains (jsTrim s.urlInput))) = true
    · rw [if_pos hc]
      rcases (addUrl_cond s).mp hc with ⟨h1, h2⟩
      rcases hinv with ⟨hall, hnd⟩
      constructor
      · intro u hu
        rcases List.mem_append.mp hu with hu | hu
        · exact hall u hu
        · rw [List.mem_singleton.mp hu]
          exact ⟨h1, jsTrim_idem s.urlInput⟩
      · rw [List.nodup_append]
        refine ⟨hnd, List.nodup_singleton _, ?_⟩
        intro a ha hb
        rw [List.mem_singleton.mp hb] at ha
        exact h2 ha
    · rw [if_neg hc]
      exact hinv
  · intro s i hinv
    have hsub : (removeUrl s i).urls.Sublist s.urls := by
      show (((s.urls.enum.filter (fun p => p.1 != i)).map Prod.snd)).Sublist s.urls
      have h1 : (s.urls.enum.filter (fun p => p.1 != i)).Sublist s.urls.enum :=
        List.filter_sublist _
      have h2 := List.Sublist.map Prod.snd h1
      rwa [List.enum_map_snd] at h2
    rcases hinv with ⟨hall, hnd⟩
    exact ⟨fun u hu => hall u (hsub.subset hu), List.Nodup.sublist hsub hnd⟩

/-- Claim C10 witness: the invariant after one add on the initial state
and after one remove on a singleton list. -/
theorem urlListInv_preserved_witness :
    urlListInv (addUrl { initialState with urlInput := " https://a.com " }).urls ∧
      urlListInv (removeUrl { initialState with urls := ["https://a.com"] } 0).urls := by
  constructor
  · exact urlListInv_preserved.2.1 _ ⟨by simp [initialState], List.nodup_nil⟩
  · refine urlListInv_preserved.2.2 _ 0 ?_
    refine ⟨?_, by simp⟩
    intro u hu
    rw [List.mem_singleton.mp hu]
    exact ⟨by decide, by rfl⟩

end CompetitorAnalysis

namespace CompetitorAnalysis

/-- The initial state satisfies the session invariant. -/
theorem sessionInv_initial : SessionInv initialState := by
  constructor
  · intro h
    exact absurd h (by simp [initialState])
  · simp [initialState]

/-- addUrl never touches isAnalyzing, result or error. -/
theorem addUrl_session_fields (s : ComponentState) :
    (addUrl s).isAnalyzing = s.isAnalyzing ∧ (addUrl s).result = s.result ∧
      (addUrl s).error = s.error := by
  unfold addUrl
  by_cases hc : ((jsTrim s.urlInput != "") && !(s.urls.contains (jsTrim s.urlInput))) = true
  · rw [if_pos hc]
    exact ⟨rfl, rfl, rfl⟩
  · rw [if_neg hc]
    exact ⟨rfl, rfl, rfl⟩

/-- Every UI-level event preserves the session invariant. -/
theorem sessionInv_stepUI (s : ComponentState) (e : UIEvent) (h : SessionInv s) :
    SessionInv (stepUI s e) := by
  obtain ⟨hA, hER⟩ := h
  cases e with
  | setInput v => exact ⟨hA, hER⟩
  | clickAdd =>
    obtain ⟨f1, f2, f3⟩ := addUrl_session_fields s
    show SessionInv (addUrl s)
    rw [SessionInv, f1, f2, f3]
    exact ⟨hA, hER⟩
  | clickRemove i => exact ⟨hA, hER⟩
  | submit =>
    show SessionInv (if s.isAnalyzing = true ∨ s.urls.length = 0 then s else beginAnalyze s)
    by_cases hcond : s.isAnalyzing = true ∨ s.urls.length = 0
    · rw [if_pos hcond]
      exact ⟨hA, hER⟩
    · rw [if_neg hcond]
      exact ⟨fun _ => ⟨rfl, rfl⟩, by simp [beginAnalyze]⟩
  | complete o =>
    show SessionInv (if s.isAnalyzing then applyOutcome s o else s)
    by_cases hb : s.isAnalyzing = true
    · rw [if_pos hb]
      obtain ⟨he, hr⟩ := hA hb
      cases o <;> simp [SessionInv, applyOutcome, he, hr]
    · rw [if_neg hb]
      exact ⟨hA, hER⟩

/-- The session invariant is preserved along any UI-level event
sequence. -/
theorem sessionInv_foldl (evs : List UIEvent) (s : ComponentState) (h : SessionInv s) :
    SessionInv (evs.foldl stepUI s) := by
  induction evs generalizing s with
  | nil => exact h
  | cons e tl ih => exact ih _ (sessionInv_stepUI s e h)

/-- A state satisfying the session invariant is in exactly one of the
four phases. -/
theorem sessionInv_exactlyOne (s : ComponentState) (h : SessionInv s) :
    exactlyOneOf4 (isIdle s) (inAnalyzingPhase s) (inSucceededPhase s) (inFailedPhase s) := by
  obtain ⟨hA, hER⟩ := h
  cases hB : s.isAnalyzing <;> cases he : s.error <;> cases hr : s.result <;>
    simp_all [exactlyOneOf4, isIdle, inAnalyzingPhase, inSucceededPhase, inFailedPhase]

/-- Claim C2 amended: in every state reachable through the rendered
controls (the analyze button is disabled while analyzing or while the
url list is empty), exactly one of Idle, Analyzing, Succeeded and
Failed is active, and in particular error and result are never both
set. -/
theorem runUI_exactlyOnePhase (evs : List UIEvent) :
    exactlyOneOf4 (isIdle (runUI evs)) (inAnalyzingPhase (runUI evs))
      (inSucceededPhase (runUI evs)) (inFailedPhase (runUI evs)) ∧
      ¬((runUI evs).error.isSome = true ∧ (runUI evs).result.isSome = true) := by
  have hinv : SessionInv (runUI evs) := sessionInv_foldl evs initialState sessionInv_initial
  exact ⟨sessionInv_exactlyOne _ hinv, hinv.2⟩

/-- Claim C2 counterexample: calling analyzeCompetitors with an empty
url list is a state change (it sets the validation error without
clearing the stored result), so after success, removal of the only url
and an empty-list submit, error and result are both set and no unique
phase is active. -/
theorem emptySubmit_bothSet_counterexample :
    (run bothSetTrace).error = some emptyUrlsMessage ∧
      (run bothSetTrace).result = some sampleResponse ∧
      ¬ exactlyOneOf4 (isIdle (run bothSetTrace)) (inAnalyzingPhase (run bothSetTrace))
        (inSucceededPhase (run bothSetTrace)) (inFailedPhase (run bothSetTrace)) := by
  have hs : run bothSetTrace
      = { urls := [], urlInput := "", isAnalyzing := false,
          result := some sampleResponse, error := some emptyUrlsMessage } := rfl
  refine ⟨by rw [hs], by rw [hs], ?_⟩
  rw [hs]
  simp [exactlyOneOf4, isIdle, inAnalyzingPhase, inSucceededPhase, inFailedPhase]

end CompetitorAnalysis
